import Mathlib

/-!
Verification of the pharmacy multi-agent dialogue orchestrator
(`pharmacy_agent.py`): shared session state, its `summarize` serialization,
the tool actions, the agent-handoff transfer protocol and the entry
protocol's context merge (dedup + truncation).

Machine model notes:
* Python `Optional[str]` is `Option String`; Python truthiness of a string
  (`x or "unknown"`) treats both `None` and `""` as falsy.
* `yaml.dump` (PyYAML) is modelled for string-to-string mappings with its
  default settings: `sort_keys=True`, so keys are emitted in ascending
  lexicographic order, one `key: value` line per entry (plain scalars; value
  quoting for special characters is not modelled, no property here depends
  on it).
* The livekit `ChatContext` operations used by the source but defined
  outside this repository (`copy(exclude_instructions=True)`,
  `truncate(n)`, `add_message`) are modelled from the spec, see their
  doc comments.
* The in-place `list.extend` over a generator at line 80 of the source
  consumes the generator element by element while the destination list
  grows, and the set `{x.id for x in chat_ctx.items}` inside the generator
  is rebuilt for every element; `mergeDedup` reproduces exactly this
  one-at-a-time semantics.
-/

namespace Pharmacy

/-- The three concrete agent personas of the program
(`TriageAgent`, `PrescriptionAgent`, `InfoAgent`). -/
inductive AgentName where
  | triage
  | prescription
  | info
deriving DecidableEq, Repr

/-- One dialogue item of a chat context: a unique `id`, a `role`
(system/user/assistant/tool) and text content.  `instr` marks the
persona-instruction system message a `BaseAgent` carries
(the part `copy(exclude_instructions=True)` removes). -/
structure DialogueItem where
  id : String
  role : String
  content : String
  instr : Bool
deriving DecidableEq, Repr

/-- Ordered log of dialogue items belonging to one agent
(livekit `ChatContext`). -/
structure ChatContext where
  items : List DialogueItem
deriving DecidableEq, Repr

/-- `PharmacyUserData` (the `SharedSessionState`): the three collected
facts, the agent registry `agents` (a string-keyed mapping, modelled as an
association list) and `prev_agent`. -/
structure PharmacyUserData where
  customer_name : Option String := none
  prescription_id : Option String := none
  medicine_name : Option String := none
  agents : List (String × AgentName) := []
  prev_agent : Option AgentName := none
deriving DecidableEq, Repr

/-- Python `x or "unknown"` for `x : Optional[str]`: `None` and the empty
string are falsy, anything else is returned unchanged. -/
def orUnknown : Option String → String
  | none => "unknown"
  | some s => if s = "" then "unknown" else s

/-- Strict lexicographic order on character lists by codepoint: the order
Python's `sorted` uses on the (ASCII) mapping keys. -/
def strLtb : List Char → List Char → Bool
  | [], [] => false
  | [], _ :: _ => true
  | _ :: _, [] => false
  | a :: as, b :: bs => if a < b then true else if b < a then false else strLtb as bs

/-- Insert a key-value pair into a key-sorted list, keeping it sorted by
key in ascending lexicographic order. -/
def insertByKey (p : String × String) : List (String × String) → List (String × String)
  | [] => [p]
  | q :: rest =>
      if strLtb p.1.data q.1.data then p :: q :: rest else q :: insertByKey p rest

/-- Sort an association list by key (insertion sort, ascending). -/
def sortByKey : List (String × String) → List (String × String)
  | [] => []
  | p :: rest => insertByKey p (sortByKey rest)

/-- Modelled behaviour of PyYAML `yaml.dump` on a string-to-string mapping
with the library's default settings: `sort_keys=True` emits the keys in
ascending lexicographic order, one `key: value` line per entry. -/
def yaml_dump (pairs : List (String × String)) : String :=
  String.join ((sortByKey pairs).map (fun kv => kv.1 ++ ": " ++ kv.2 ++ "\n"))

/-- `PharmacyUserData.summarize`: `yaml.dump` of the mapping literal
`{"customer_name": ..., "prescription_id": ..., "medicine_name": ...}`
(the pairs are listed here in the source's insertion order; `yaml_dump`
then sorts the keys). -/
def PharmacyUserData.summarize (u : PharmacyUserData) : String :=
  yaml_dump
    [("customer_name", orUnknown u.customer_name),
     ("prescription_id", orUnknown u.prescription_id),
     ("medicine_name", orUnknown u.medicine_name)]

/-- One rendered line of the modelled `yaml.dump` output. -/
def yamlLine (k v : String) : String := k ++ ": " ++ v ++ "\n"

/-- The serialization as the specification describes it: the three fields
rendered in the order customer_name, prescription_id, medicine_name (same
line format as the modelled `yaml_dump`, only the order differs).  Written
from the spec's words, for comparison with `summarize`. -/
def summarizeSpecOrder (u : PharmacyUserData) : String :=
  "customer_name: " ++ orUnknown u.customer_name ++ "\n" ++
  "prescription_id: " ++ orUnknown u.prescription_id ++ "\n" ++
  "medicine_name: " ++ orUnknown u.medicine_name ++ "\n"

/-- Tool action `update_name`: writes `customer_name`, returns
confirmation text. -/
def update_name (u : PharmacyUserData) (name : String) :
    PharmacyUserData × String :=
  ({ u with customer_name := some name },
   "Updated your name to " ++ name ++ ".")

/-- Tool action `check_prescription_status`: writes `prescription_id`,
returns the mocked status reply. -/
def check_prescription_status (u : PharmacyUserData) (pid : String) :
    PharmacyUserData × String :=
  ({ u with prescription_id := some pid },
   "Prescription " ++ pid ++ " is ready for pickup. (mocked)")

/-- Tool action `check_medicine_availability`: writes `medicine_name`,
returns the mocked availability reply. -/
def check_medicine_availability (u : PharmacyUserData) (med : String) :
    PharmacyUserData × String :=
  ({ u with medicine_name := some med },
   med ++ " is currently in stock. (mocked)")

/-- Tool action `get_pharmacy_info`: static informational text, no state
write. -/
def get_pharmacy_info (u : PharmacyUserData) : PharmacyUserData × String :=
  (u,
   "Our pharmacy is located at 123 Health Ave, Wellness City.\n" ++
   "We are open Monday to Friday from 9 AM to 7 PM, and Saturday from 10 AM to 4 PM.")

/-- Lookup in the agent registry (Python `dict` access
`userdata.agents[name]`; keys in the registry are distinct, so
first-match lookup coincides with dict semantics). -/
def lookupAgent (l : List (String × AgentName)) (name : String) :
    Option AgentName :=
  (l.find? (fun kv => kv.1 == name)).map (fun kv => kv.2)

/-- The live session: the shared user data plus the currently active agent
(the framework's `session.current_agent`). -/
structure Session where
  userdata : PharmacyUserData
  current_agent : AgentName
deriving DecidableEq, Repr

/-- `BaseAgent._transfer_to_agent(name, context)`: looks up
`userdata.agents[name]` first (a missing key raises, before any mutation),
then sets `userdata.prev_agent` to the session's current agent and returns
the next agent together with the confirmation string.  The error case
returns the session unchanged, as the raise happens before the write. -/
def transfer_to_agent (s : Session) (name : String) :
    Session × Except String (AgentName × String) :=
  match lookupAgent s.userdata.agents name with
  | none => (s, Except.error ("KeyError: " ++ name))
  | some next =>
      ({ s with userdata := { s.userdata with prev_agent := some s.current_agent } },
       Except.ok (next, "Transferring to " ++ name ++ "."))

/-- Modelled from the spec: the dispatch layer (livekit session, outside
this repository) applies the agent returned by a transfer tool, making it
the session's current agent (§4.4 `transfer`); on a failed lookup the
request fails and the session is left as `_transfer_to_agent` left it
(unchanged). -/
def transfer (s : Session) (name : String) : Session × Except String String :=
  match transfer_to_agent s name with
  | (s1, Except.error e) => (s1, Except.error e)
  | (s1, Except.ok (next, msg)) =>
      ({ s1 with current_agent := next }, Except.ok msg)

/-- Modelled from the spec: livekit `ChatContext.copy(exclude_instructions=True)`
(outside this repository) — a copy that drops only the persona-instruction
system message(s), not other system messages (§4.2). -/
def ChatContext.copyExcl (c : ChatContext) : ChatContext :=
  ⟨c.items.filter (fun i => !(i.role == "system" && i.instr))⟩

/-- Modelled from the spec: livekit `ChatContext.truncate(n)` (outside this
repository) — keeps only the last `n` items, oldest-first order preserved
(§4.2). -/
def ChatContext.truncate (c : ChatContext) (n : Nat) : ChatContext :=
  ⟨c.items.drop (c.items.length - n)⟩

/-- The merge at line 80 of the source:
`chat_ctx.items.extend(i for i in previous.items if i.id not in {x.id for x in chat_ctx.items})`.
`list.extend` consumes the generator one element at a time while appending
to the destination, and the id set inside the generator is rebuilt from the
(already grown) destination for every element, so each candidate is checked
against the destination including the items appended before it. -/
def mergeDedup : List DialogueItem → List DialogueItem → List DialogueItem
  | dest, [] => dest
  | dest, i :: rest =>
      if dest.any (fun x => x.id == i.id) then mergeDedup dest rest
      else mergeDedup (dest ++ [i]) rest

/-- The candidate items offered for merging from a previous agent's
context: `prev_agent.chat_ctx.copy(exclude_instructions=True).truncate(6)`
(line 79 of the source). -/
def truncExcl (p : ChatContext) : List DialogueItem :=
  ((p.copyExcl).truncate 6).items

/-- The items actually carried over from the previous agent's context into
the current agent's working copy: what the merge appended after the
destination's own items. -/
def carriedOver (own p : ChatContext) : List DialogueItem :=
  (mergeDedup own.items (truncExcl p)).drop own.items.length

/-- The system message `on_enter` appends:
`add_message("system", f"You are {agent_name}. Current user data:\n{userdata.summarize()}")`.
`add_message` (livekit, outside this repository) creates the item with a
fresh id, passed here as `freshId`; it is not a persona instruction. -/
def enterMessage (agentName : String) (u : PharmacyUserData) (freshId : String) :
    DialogueItem :=
  ⟨freshId, "system",
   "You are " ++ agentName ++ ". Current user data:\n" ++ u.summarize,
   false⟩

/-- `BaseAgent.on_enter` as a function of the inputs it reads: the
becoming-current agent's own context, the previous agent's context when
`userdata.prev_agent` is set, the agent's class name and the shared user
data.  Steps: copy own context; if a previous agent exists, merge its
instruction-excluded, truncated items with dedup; append the system
message with the state summary.  (The final `update_chat_ctx` stores the
result; `generate_reply(tool_choice="none")` is an external inference
call with no effect on the context.) -/
def on_enter (own : ChatContext) (prevCtx : Option ChatContext)
    (agentName : String) (u : PharmacyUserData) (freshId : String) :
    ChatContext :=
  let working : List DialogueItem :=
    match prevCtx with
    | some p => mergeDedup own.items (truncExcl p)
    | none => own.items
  ⟨working ++ [enterMessage agentName u freshId]⟩

/-- `s` contains `t` as a contiguous substring (stated on the underlying
character lists). -/
def containsSubstr (s t : String) : Prop :=
  t.data <:+: s.data

/-- The five tool actions defined in the source. -/
inductive Tool where
  | update_name
  | check_prescription_status
  | check_medicine_availability
  | get_pharmacy_info
  | to_triage
deriving DecidableEq, Repr, Fintype

/-- The registry name a transfer tool hands control to: `to_triage` calls
`_transfer_to_agent("triage", context)`; no other tool transfers. -/
def transferTarget : Tool → Option String
  | Tool.to_triage => some "triage"
  | _ => none

/-- The tool set of each concrete agent class, as listed in its
constructor. -/
def agentTools : AgentName → List Tool
  | AgentName.triage =>
      [Tool.check_prescription_status, Tool.check_medicine_availability,
       Tool.get_pharmacy_info]
  | AgentName.prescription =>
      [Tool.update_name, Tool.check_prescription_status, Tool.to_triage]
  | AgentName.info =>
      [Tool.get_pharmacy_info, Tool.to_triage]

/-- The agent registry built in `entrypoint`:
`userdata.agents.update({"triage": ..., "prescription": ..., "info": ...})`
on an initially empty dict. -/
def entryRegistry : List (String × AgentName) :=
  [("triage", AgentName.triage),
   ("prescription", AgentName.prescription),
   ("info", AgentName.info)]

/-- A concrete session over the `entrypoint` registry, current agent
`prescription`, used to instantiate universally quantified theorems. -/
def exSession : Session :=
  { userdata := { agents := entryRegistry },
    current_agent := AgentName.prescription }

/-- A concrete non-instruction dialogue item, used to instantiate
universally quantified theorems. -/
def exItem (s : String) : DialogueItem := ⟨s, "user", s, false⟩

/-- A concrete destination context (one item, id "b"). -/
def exOwnCtx : ChatContext := ⟨[exItem "b"]⟩

/-- A concrete previous-agent context (items "a", "b", "c"; the id "b" is
shared with `exOwnCtx`). -/
def exPrevCtx : ChatContext := ⟨[exItem "a", exItem "b", exItem "c"]⟩

/-- Concrete user data with a collected prescription id. -/
def exUser : PharmacyUserData := { prescription_id := some "RX123" }

/-! ## Lemmas about the merge of line 80 -/

/-- The merge only appends: the result is the destination followed by some
added items, and every added item's id differs from every destination
item's id. -/
theorem mergeDedup_append (prev : List DialogueItem) :
    ∀ dest : List DialogueItem, ∃ added,
      mergeDedup dest prev = dest ++ added ∧
      ∀ j ∈ added, ∀ x ∈ dest, x.id ≠ j.id := by
  induction prev with
  | nil => intro dest; exact ⟨[], by simp [mergeDedup]⟩
  | cons i rest ih =>
    intro dest
    by_cases hc : dest.any (fun x => x.id == i.id) = true
    · obtain ⟨added, heq, habs⟩ := ih dest
      exact ⟨added, by simp [mergeDedup, hc, heq], habs⟩
    · obtain ⟨added, heq, habs⟩ := ih (dest ++ [i])
      have hni : ∀ x ∈ dest, x.id ≠ i.id := by
        intro x hx
        simp [List.any_eq_true] at hc
        exact hc x hx
      refine ⟨i :: added, ?_, ?_⟩
      · simp [mergeDedup, hc, heq]
      · intro j hj x hx
        rcases List.mem_cons.mp hj with h | h
        · subst h; exact hni x hx
        · exact habs j h x (List.mem_append_left _ hx)

/-- The merge preserves distinctness of ids: if the destination has no
duplicate ids, neither has the merge result (each candidate is checked
against the grown destination, so this needs no assumption on the
candidate list). -/
theorem mergeDedup_nodup (prev : List DialogueItem) :
    ∀ dest : List DialogueItem, (dest.map (fun x => x.id)).Nodup →
      ((mergeDedup dest prev).map (fun x => x.id)).Nodup := by
  induction prev with
  | nil => intro dest h; simpa [mergeDedup] using h
  | cons i rest ih =>
    intro dest h
    by_cases hc : dest.any (fun x => x.id == i.id) = true
    · simpa [mergeDedup, hc] using ih dest h
    · have hni : i.id ∉ dest.map (fun x => x.id) := by
        intro hmem
        obtain ⟨x, hx, he⟩ := List.mem_map.mp hmem
        simp [List.any_eq_true] at hc
        exact hc x hx he
      have hnd : (((dest ++ [i]).map (fun x => x.id))).Nodup := by
        rw [List.map_append]
        exact h.append (List.nodup_singleton i.id)
          (List.disjoint_singleton.mpr hni)
      simpa [mergeDedup, hc] using ih (dest ++ [i]) hnd

/-- The merge result is no longer than destination plus candidates. -/
theorem mergeDedup_length (prev : List DialogueItem) :
    ∀ dest : List DialogueItem,
      (mergeDedup dest prev).length ≤ dest.length + prev.length := by
  induction prev with
  | nil => intro dest; simp [mergeDedup]
  | cons i rest ih =>
    intro dest
    by_cases hc : dest.any (fun x => x.id == i.id) = true
    · calc (mergeDedup dest (i :: rest)).length
          = (mergeDedup dest rest).length := by simp [mergeDedup, hc]
        _ ≤ dest.length + rest.length := ih dest
        _ ≤ dest.length + (i :: rest).length := by
          simp only [List.length_cons]; omega
    · calc (mergeDedup dest (i :: rest)).length
          = (mergeDedup (dest ++ [i]) rest).length := by simp [mergeDedup, hc]
        _ ≤ (dest ++ [i]).length + rest.length := ih (dest ++ [i])
        _ ≤ dest.length + (i :: rest).length := by
          simp only [List.length_append, List.length_cons, List.length_nil]
          omega

/-- Characterization of the appended part of the merge when the candidate
list has distinct ids: exactly the candidates whose id is absent from the
destination, in their original order. -/
theorem mergeDedup_drop_eq_filter (prev : List DialogueItem) :
    ∀ dest : List DialogueItem, (prev.map (fun x => x.id)).Nodup →
      (mergeDedup dest prev).drop dest.length =
        prev.filter (fun j => !dest.any (fun x => x.id == j.id)) := by
  induction prev with
  | nil => intro dest h; simp [mergeDedup]
  | cons i rest ih =>
    intro dest h
    have hrest : (rest.map (fun x => x.id)).Nodup := by
      simp only [List.map_cons, List.nodup_cons] at h; exact h.2
    have hinotin : i.id ∉ rest.map (fun x => x.id) := by
      simp only [List.map_cons, List.nodup_cons] at h; exact h.1
    by_cases hc : dest.any (fun x => x.id == i.id) = true
    · rw [show mergeDedup dest (i :: rest) = mergeDedup dest rest by
        simp [mergeDedup, hc]]
      rw [ih dest hrest, List.filter_cons]
      simp [hc]
    · rw [show mergeDedup dest (i :: rest) = mergeDedup (dest ++ [i]) rest by
        simp [mergeDedup, hc]]
      obtain ⟨added, heq, _⟩ := mergeDedup_append rest (dest ++ [i])
      have hadded :
          added =
            rest.filter (fun j => !(dest ++ [i]).any (fun x => x.id == j.id)) := by
        have h2 := ih (dest ++ [i]) hrest
        rw [heq, List.drop_left] at h2
        exact h2
      have hfiltereq :
          rest.filter (fun j => !(dest ++ [i]).any (fun x => x.id == j.id))
            = rest.filter (fun j => !dest.any (fun x => x.id == j.id)) := by
        apply List.filter_congr
        intro j hj
        have hne : i.id ≠ j.id := by
          intro he
          exact hinotin (he ▸ List.mem_map_of_mem _ hj)
        simp [List.any_append, hne]
      rw [heq, List.append_assoc, List.drop_left, List.filter_cons]
      simp only [hc, Bool.not_false, if_true]
      rw [hadded, hfiltereq]
      rfl

/-! ## Claim theorems -/

/-- C1 (counterexample): the claim that `summarize()` renders the three
fields in the order customer_name, prescription_id, medicine_name is false
on the code: `yaml.dump` sorts the mapping keys (its default
`sort_keys=True`), so on the freshly created state the actual output puts
`medicine_name` before `prescription_id`, and differs from the
spec-ordered rendering `summarizeSpecOrder`. -/
theorem summarize_field_order_counterexample :
    PharmacyUserData.summarize {} =
      "customer_name: unknown\nmedicine_name: unknown\nprescription_id: unknown\n" ∧
    PharmacyUserData.summarize {} ≠ summarizeSpecOrder {} := by
  constructor
  · rfl
  · decide

/-- C1 (amended): `summarize()` returns a deterministic serialization that
renders the three fields one `key: value` line each in ascending
(alphabetical) key order — customer_name, medicine_name, prescription_id —
substituting "unknown" for each unset field. -/
theorem summarize_renders_sorted_fields (u : PharmacyUserData) :
    u.summarize =
      yamlLine "customer_name" (orUnknown u.customer_name) ++
      yamlLine "medicine_name" (orUnknown u.medicine_name) ++
      yamlLine "prescription_id" (orUnknown u.prescription_id) := rfl

/-- C9: a field set to the empty string (for example via
`update_name("")`) renders as "unknown" in `summarize()`, exactly as if it
had never been set: the unset test is Python falsiness (`x or "unknown"`),
which treats `None` and `""` alike. -/
theorem summarize_empty_string_is_unknown (u : PharmacyUserData) :
    orUnknown (some "") = orUnknown none ∧
    ({ u with customer_name := some "" } : PharmacyUserData).summarize =
      ({ u with customer_name := none } : PharmacyUserData).summarize ∧
    ({ u with prescription_id := some "" } : PharmacyUserData).summarize =
      ({ u with prescription_id := none } : PharmacyUserData).summarize ∧
    ({ u with medicine_name := some "" } : PharmacyUserData).summarize =
      ({ u with medicine_name := none } : PharmacyUserData).summarize ∧
    (update_name u "").1.summarize =
      ({ u with customer_name := none } : PharmacyUserData).summarize := by
  refine ⟨rfl, rfl, rfl, rfl, rfl⟩

/-- C2: for agents A and B registered in the session's registry, a
transfer to B's name while A is current makes B the current agent and
records A as the previous agent (and returns the confirmation text). -/
theorem transfer_sets_current_and_previous (s : Session) (A B : AgentName)
    (nameA nameB : String)
    (_hA : lookupAgent s.userdata.agents nameA = some A)
    (hB : lookupAgent s.userdata.agents nameB = some B)
    (hcur : s.current_agent = A) :
    (transfer s nameB).1.current_agent = B ∧
    (transfer s nameB).1.userdata.prev_agent = some A ∧
    (transfer s nameB).2 = Except.ok ("Transferring to " ++ nameB ++ ".") := by
  simp [transfer, transfer_to_agent, hB, hcur]

/-- Witness for C2: in the entrypoint registry, transferring to "triage"
while `prescription` is current yields current = triage, previous =
prescription. -/
theorem transfer_sets_current_and_previous_witness :
    (lookupAgent exSession.userdata.agents "prescription" =
        some AgentName.prescription ∧
      lookupAgent exSession.userdata.agents "triage" = some AgentName.triage ∧
      exSession.current_agent = AgentName.prescription) ∧
    ((transfer exSession "triage").1.current_agent = AgentName.triage ∧
     (transfer exSession "triage").1.userdata.prev_agent =
        some AgentName.prescription ∧
     (transfer exSession "triage").2 =
        Except.ok ("Transferring to " ++ "triage" ++ ".")) :=
  ⟨⟨by decide, by decide, rfl⟩,
   transfer_sets_current_and_previous exSession AgentName.prescription
     AgentName.triage "prescription" "triage" (by decide) (by decide) rfl⟩

/-- C3: a transfer to a name absent from the registry fails (the dict
lookup raises before `prev_agent` is written) and leaves the whole session
— in particular `current_agent` and `prev_agent` — unchanged; the error is
returned to the requesting turn, the session value itself persists. -/
theorem transfer_unknown_target (s : Session) (name : String)
    (h : lookupAgent s.userdata.agents name = none) :
    (transfer s name).1 = s ∧
    (transfer s name).2 = Except.error ("KeyError: " ++ name) := by
  simp [transfer, transfer_to_agent, h]

/-- Witness for C3: transferring to "nonexistent" on the entrypoint
registry errors and leaves the session unchanged. -/
theorem transfer_unknown_target_witness :
    lookupAgent exSession.userdata.agents "nonexistent" = none ∧
    ((transfer exSession "nonexistent").1 = exSession ∧
     (transfer exSession "nonexistent").2 =
        Except.error ("KeyError: " ++ "nonexistent")) :=
  ⟨by decide, transfer_unknown_target exSession "nonexistent" (by decide)⟩

/-- C7: `check_prescription_status(p)` sets `prescription_id` to `p` and
returns a reply containing both `p` and "ready for pickup". -/
theorem check_prescription_status_spec (u : PharmacyUserData) (p : String) :
    (check_prescription_status u p).1.prescription_id = some p ∧
    containsSubstr (check_prescription_status u p).2 p ∧
    containsSubstr (check_prescription_status u p).2 "ready for pickup" := by
  refine ⟨rfl, ?_, ?_⟩
  · show p.data <:+:
      ("Prescription " ++ p ++ " is ready for pickup. (mocked)").data
    simp only [String.data_append]
    exact List.infix_append _ _ _
  · show ("ready for pickup" : String).data <:+:
      ("Prescription " ++ p ++ " is ready for pickup. (mocked)").data
    simp only [String.data_append]
    have h1 : ("ready for pickup" : String).data <:+:
        (" is ready for pickup. (mocked)" : String).data :=
      ⟨(" is " : String).data, (". (mocked)" : String).data, rfl⟩
    exact h1.trans
      (List.IsSuffix.isInfix (List.suffix_append _ _))

/-- C8: every tool action is an idempotent single-field overwrite of the
shared state: `update_name` writes only `customer_name`,
`check_prescription_status` only `prescription_id`,
`check_medicine_availability` only `medicine_name`, `get_pharmacy_info`
writes nothing; each repeated run with the same argument leaves the state
identical. -/
theorem tool_actions_idempotent_single_field (u : PharmacyUserData)
    (n p m : String) :
    ((update_name u n).1 = { u with customer_name := some n } ∧
     (update_name (update_name u n).1 n).1 = (update_name u n).1) ∧
    ((check_prescription_status u p).1 = { u with prescription_id := some p } ∧
     (check_prescription_status (check_prescription_status u p).1 p).1 =
       (check_prescription_status u p).1) ∧
    ((check_medicine_availability u m).1 = { u with medicine_name := some m } ∧
     (check_medicine_availability (check_medicine_availability u m).1 m).1 =
       (check_medicine_availability u m).1) ∧
    (get_pharmacy_info u).1 = u :=
  ⟨⟨rfl, rfl⟩, ⟨rfl, rfl⟩, ⟨rfl, rfl⟩, rfl⟩

/-- C10: `to_triage` is the only transfer tool; it appears in the
Prescription and Info agents' tool sets, the Triage agent has no transfer
tool, and every tool-initiated handoff over the entrypoint registry makes
the agent registered under "triage" current. -/
theorem only_transfer_tool_targets_triage :
    (∀ t : Tool, transferTarget t ≠ none → t = Tool.to_triage) ∧
    (∀ t ∈ agentTools AgentName.triage, transferTarget t = none) ∧
    Tool.to_triage ∈ agentTools AgentName.prescription ∧
    Tool.to_triage ∈ agentTools AgentName.info ∧
    (∀ s : Session, s.userdata.agents = entryRegistry →
      ∀ (a : AgentName) (t : Tool) (tgt : String),
        t ∈ agentTools a → transferTarget t = some tgt →
        (transfer s tgt).1.current_agent = AgentName.triage) := by
  refine ⟨by decide, by decide, by decide, by decide, ?_⟩
  intro s hs a t tgt ht htgt
  cases t <;> simp [transferTarget] at htgt
  subst htgt
  simp [transfer, transfer_to_agent, lookupAgent, hs, entryRegistry]

/-- Witness for C10: from the entrypoint registry with `info` current, the
`to_triage` tool of the Info agent hands control to the triage agent. -/
theorem only_transfer_tool_targets_triage_witness :
    (transfer exSession "triage").1.current_agent = AgentName.triage :=
  only_transfer_tool_targets_triage.2.2.2.2 exSession rfl AgentName.info
    Tool.to_triage "triage" (by decide) rfl

/-- C4: when both the destination context and the previous agent's context
have pairwise-distinct item ids, the entry protocol's merge produces a
context with no two items of the same id, and an item from the previous
context is appended only if its id is absent from the destination. -/
theorem entry_merge_no_duplicate_ids (own p : ChatContext)
    (hown : (own.items.map (fun x => x.id)).Nodup)
    (_hp : (p.items.map (fun x => x.id)).Nodup) :
    ((mergeDedup own.items (truncExcl p)).map (fun x => x.id)).Nodup ∧
    ∃ added, mergeDedup own.items (truncExcl p) = own.items ++ added ∧
      ∀ j ∈ added, ∀ x ∈ own.items, x.id ≠ j.id :=
  ⟨mergeDedup_nodup (truncExcl p) own.items hown,
   mergeDedup_append (truncExcl p) own.items⟩

/-- Witness for C4 at concrete contexts sharing the id "b". -/
theorem entry_merge_no_duplicate_ids_witness :
    ((exOwnCtx.items.map (fun x => x.id)).Nodup ∧
      (exPrevCtx.items.map (fun x => x.id)).Nodup) ∧
    (((mergeDedup exOwnCtx.items (truncExcl exPrevCtx)).map
        (fun x => x.id)).Nodup ∧
     ∃ added,
        mergeDedup exOwnCtx.items (truncExcl exPrevCtx) =
          exOwnCtx.items ++ added ∧
        ∀ j ∈ added, ∀ x ∈ exOwnCtx.items, x.id ≠ j.id) :=
  ⟨⟨by decide, by decide⟩,
   entry_merge_no_duplicate_ids exOwnCtx exPrevCtx (by decide) (by decide)⟩

/-- C5 (counterexample): the items actually carried over are not in
general "exactly the chronologically most recent items" of the previous
agent's instruction-excluded context: when the destination already has the
id of a middle item ("b"), the carried-over items are ["a", "c"], while
the most recent two items are ["b", "c"]. -/
theorem carried_over_not_most_recent_counterexample :
    carriedOver exOwnCtx exPrevCtx = [exItem "a", exItem "c"] ∧
    (truncExcl exPrevCtx).drop
        ((truncExcl exPrevCtx).length - (carriedOver exOwnCtx exPrevCtx).length)
      = [exItem "b", exItem "c"] ∧
    carriedOver exOwnCtx exPrevCtx ≠
      (truncExcl exPrevCtx).drop
        ((truncExcl exPrevCtx).length -
          (carriedOver exOwnCtx exPrevCtx).length) := by
  refine ⟨by decide, by decide, by decide⟩

/-- C5 (amended): at most 6 items are carried over from the previous
agent, and — provided the candidate items have pairwise-distinct ids —
they are exactly those of the chronologically most recent (at most 6)
instruction-excluded items of the previous agent's context whose ids are
not already present in the destination, in their original oldest-first
order (in particular a subsequence of those most recent items). -/
theorem carried_over_recent_new_items (own p : ChatContext)
    (h : ((truncExcl p).map (fun x => x.id)).Nodup) :
    carriedOver own p =
      (truncExcl p).filter (fun j => !own.items.any (fun x => x.id == j.id)) ∧
    (carriedOver own p).length ≤ 6 ∧
    List.Sublist (carriedOver own p) (truncExcl p) ∧
    truncExcl p =
      (p.copyExcl).items.drop ((p.copyExcl).items.length - 6) := by
  have hchar := mergeDedup_drop_eq_filter (truncExcl p) own.items h
  refine ⟨hchar, ?_, ?_, rfl⟩
  · calc (carriedOver own p).length
        = ((truncExcl p).filter
            (fun j => !own.items.any (fun x => x.id == j.id))).length := by
          rw [show carriedOver own p = _ from hchar]
      _ ≤ (truncExcl p).length := List.length_filter_le _ _
      _ ≤ 6 := by
          simp only [truncExcl, ChatContext.truncate, ChatContext.copyExcl,
            List.length_drop]
          omega
  · rw [show carriedOver own p = _ from hchar]
    exact List.filter_sublist _

/-- Witness for C5 (amended) at the concrete contexts. -/
theorem carried_over_recent_new_items_witness :
    ((truncExcl exPrevCtx).map (fun x => x.id)).Nodup ∧
    (carriedOver exOwnCtx exPrevCtx =
        (truncExcl exPrevCtx).filter
          (fun j => !exOwnCtx.items.any (fun x => x.id == j.id)) ∧
      (carriedOver exOwnCtx exPrevCtx).length ≤ 6 ∧
      List.Sublist (carriedOver exOwnCtx exPrevCtx) (truncExcl exPrevCtx) ∧
      truncExcl exPrevCtx =
        (exPrevCtx.copyExcl).items.drop
          ((exPrevCtx.copyExcl).items.length - 6)) :=
  ⟨by decide, carried_over_recent_new_items exOwnCtx exPrevCtx (by decide)⟩

/-- C6: every entry-protocol run appends exactly one system message to the
becoming-current agent's context — the merged items followed by a single
system message — whose text contains the entering agent's name and the
full `summarize()` output; consequently a collected, nonempty prescription
id appears in the new agent's context even if no carried-over item
mentions it. -/
theorem entry_appends_state_summary (own : ChatContext)
    (prevCtx : Option ChatContext) (agentName : String)
    (u : PharmacyUserData) (freshId : String) :
    (on_enter own prevCtx agentName u freshId).items =
      (match prevCtx with
        | some p => mergeDedup own.items (truncExcl p)
        | none => own.items) ++ [enterMessage agentName u freshId] ∧
    (enterMessage agentName u freshId).role = "system" ∧
    containsSubstr (enterMessage agentName u freshId).content agentName ∧
    containsSubstr (enterMessage agentName u freshId).content u.summarize ∧
    (∀ pid : String, u.prescription_id = some pid → pid ≠ "" →
      containsSubstr (enterMessage agentName u freshId).content pid) := by
  have hcont : u.summarize.data <:+ (enterMessage agentName u freshId).content.data := by
    show u.summarize.data <:+
      ("You are " ++ agentName ++ ". Current user data:\n" ++ u.summarize).data
    simp only [String.data_append]
    exact List.suffix_append _ _
  refine ⟨rfl, rfl, ?_, hcont.isInfix, ?_⟩
  · show agentName.data <:+:
      ("You are " ++ agentName ++ ". Current user data:\n" ++ u.summarize).data
    simp only [String.data_append]
    exact ⟨("You are " : String).data,
      (". Current user data:\n" : String).data ++ u.summarize.data,
      by simp [List.append_assoc]⟩
  · intro pid hpid hne
    have horU : orUnknown u.prescription_id = pid := by
      simp [orUnknown, hpid, hne]
    have hsum : pid.data <:+: u.summarize.data := by
      have hs : u.summarize =
          yamlLine "customer_name" (orUnknown u.customer_name) ++
          yamlLine "medicine_name" (orUnknown u.medicine_name) ++
          yamlLine "prescription_id" (orUnknown u.prescription_id) := rfl
      rw [hs, horU]
      refine ⟨(yamlLine "customer_name" (orUnknown u.customer_name) ++
          yamlLine "medicine_name" (orUnknown u.medicine_name)).data ++
          ("prescription_id" ++ ": " : String).data,
        ("\n" : String).data, ?_⟩
      simp [yamlLine, String.data_append, List.append_assoc]
    exact hsum.trans hcont.isInfix

/-- Witness for C6: with prescription id "RX123" collected, the appended
system message's text contains "RX123". -/
theorem entry_appends_state_summary_witness :
    (exUser.prescription_id = some "RX123" ∧ "RX123" ≠ "") ∧
    containsSubstr (enterMessage "TriageAgent" exUser "msg-1").content "RX123" :=
  ⟨⟨rfl, by decide⟩,
   (entry_appends_state_summary exOwnCtx (some exPrevCtx) "TriageAgent"
      exUser "msg-1").2.2.2.2 "RX123" rfl (by decide)⟩

end Pharmacy
